import Mathlib

/-!
Shallow embedding of the NSWAZ SRP management system's core
(request lifecycle, process log, tier limits, payout calculation, dashboard
statistics), translated from the repository's TypeScript sources:
the `DatabaseStorage` class and `SrpLimitsService` (the current generation,
with the `srp_process_log` table and transactional operations), the shared
schema, and — for the payout calculation, whose implementation is not in the
sources — the specification's algorithm.

The PostgreSQL store is modelled as a pure `Storage` state; each storage
method becomes a function from `Storage` to a result paired with the new
`Storage`.  A transaction is a single such function application, so the
all-or-nothing behaviour of `db.transaction` is the function either
returning the fully updated state or the original one.  Row timestamps
(`occurred_at DEFAULT now()`) are modelled by a monotone counter `now`
stamped on every insert, and `gen_random_uuid()` by a fresh-id counter.
-/

/-- Status enum of the `srp_requests` table (`srp_status` pg enum:
pending, approved, denied, processing). -/
inductive SrpStatus
  | pending
  | approved
  | denied
  | processing
deriving DecidableEq

/-- Event kinds appearing in the `srp_process_log` table
(created, processing, approved, denied, paid). -/
inductive ProcessType
  | created
  | processing
  | approved
  | denied
  | paid
deriving DecidableEq

/-- The `status` string argument of `reviewSrpRequest` is cast both into the
`srp_status` column and the process-log kind (`status as any`); the three
values for which both casts are defined are the review decisions. -/
inductive ReviewDecision
  | approved
  | denied
  | processing
deriving DecidableEq

/-- Value written by `reviewSrpRequest` into the `status` column. -/
def ReviewDecision.toStatus : ReviewDecision → SrpStatus
  | .approved => .approved
  | .denied => .denied
  | .processing => .processing

/-- Value written by `reviewSrpRequest` into the `process_type` column. -/
def ReviewDecision.toProcessType : ReviewDecision → ProcessType
  | .approved => .approved
  | .denied => .denied
  | .processing => .processing

/-- One row of `srp_requests`, restricted to the columns the storage
operations and dashboard queries touch (id, seat_user_id, isk_amount,
status, payout_amount). -/
structure SrpRequest where
  id : Nat
  seatUserId : Nat
  iskAmount : Int
  status : SrpStatus
  payoutAmount : Option Int
deriving DecidableEq

/-- One row of `srp_process_log` (srp_request_id, process_type,
by_main_char, note, occurred_at). -/
structure SrpProcessLog where
  srpRequestId : Nat
  processType : ProcessType
  byMainChar : String
  note : Option String
  occurredAt : Nat
deriving DecidableEq

/-- The database state: the two tables (rows in insertion order), the
fresh-id counter standing in for `gen_random_uuid()`, and the clock
stamped on inserted log rows (`occurred_at DEFAULT now()`). -/
structure Storage where
  requests : List SrpRequest
  processLog : List SrpProcessLog
  nextId : Nat
  now : Nat
deriving DecidableEq

/-- An empty database. -/
def emptyStorage : Storage :=
  { requests := [], processLog := [], nextId := 1, now := 0 }

/-- Payload of `createSrpRequest` (`InsertSrpRequest`): the insert schema
omits id, status and the payout columns; only the claim-relevant
`iskAmount` field is kept. -/
structure InsertSrpRequest where
  iskAmount : Int
deriving DecidableEq

/-- A `Partial<SrpRequest>` patch as taken by `updateSrpRequest`; a `some`
field is present in the patch and overwrites the column. -/
structure SrpRequestPatch where
  status : Option SrpStatus := none
  payoutAmount : Option (Option Int) := none
deriving DecidableEq

/-- Application of a `Partial<SrpRequest>` patch (`.set({ ...data })`). -/
def applyPatch (p : SrpRequestPatch) (r : SrpRequest) : SrpRequest :=
  { r with
    status := p.status.getD r.status
    payoutAmount := p.payoutAmount.getD r.payoutAmount }

/-- SELECT of the row with the given id (`where(eq(srpRequests.id, id))`). -/
def findRequest (s : Storage) (id : Nat) : Option SrpRequest :=
  s.requests.find? (fun r => r.id = id)

/-- UPDATE of every row matching the id, leaving the others unchanged. -/
def updateWhere (id : Nat) (f : SrpRequest → SrpRequest) :
    List SrpRequest → List SrpRequest :=
  List.map (fun r => if r.id = id then f r else r)

/-- `update(...).set(...).where(eq(id)).returning()`: the updated row when
one with that id exists, `none` (and the state untouched) otherwise. -/
def updateReturning (s : Storage) (id : Nat) (f : SrpRequest → SrpRequest) :
    Option SrpRequest × Storage :=
  match findRequest s id with
  | none => (none, s)
  | some r => (some (f r), { s with requests := updateWhere id f s.requests })

/-- INSERT into `srp_process_log`; `occurred_at` is stamped with the current
clock, which then advances. -/
def appendLog (s : Storage) (reqId : Nat) (pt : ProcessType) (actor : String)
    (note : Option String) : Storage :=
  { s with
    processLog := s.processLog ++ [⟨reqId, pt, actor, note, s.now⟩]
    now := s.now + 1 }

/-- JavaScript `x || null` on an optional number: `undefined` and `0` are
falsy and become null; any other value is kept. -/
def orNullInt : Option Int → Option Int
  | some v => if v = 0 then none else some v
  | none => none

/-- JavaScript `x || null` on an optional string: `undefined` and the empty
string become null. -/
def orNullStr : Option String → Option String
  | some n => if n = "" then none else some n
  | none => none

/-- DatabaseStorage.createSrpRequest: in one transaction, insert the request
row with `status: "pending"` (payout columns absent, hence null) and insert
a `created` process-log row for the new id. -/
def createSrpRequest (seatUserId : Nat) (mainCharName : String)
    (data : InsertSrpRequest) (s : Storage) : SrpRequest × Storage :=
  let req : SrpRequest :=
    { id := s.nextId
      seatUserId := seatUserId
      iskAmount := data.iskAmount
      status := .pending
      payoutAmount := none }
  let s1 := { s with requests := s.requests ++ [req], nextId := s.nextId + 1 }
  (req, appendLog s1 req.id .created mainCharName none)

/-- DatabaseStorage.updateSrpRequest: blind partial update of the row,
no transaction around a log insert — none is made. -/
def updateSrpRequest (id : Nat) (data : SrpRequestPatch) (s : Storage) :
    Option SrpRequest × Storage :=
  updateReturning s id (applyPatch data)

/-- DatabaseStorage.reviewSrpRequest: in one transaction, set
`status` and `payoutAmount: payout || null` on the row (no guard on the
current status), return `undefined` leaving everything unchanged when the
id does not exist, and otherwise insert a process-log row whose kind is the
new status and whose note is `note || null`. -/
def reviewSrpRequest (id : Nat) (reviewerName : String) (d : ReviewDecision)
    (note : Option String) (payout : Option Int) (s : Storage) :
    Option SrpRequest × Storage :=
  match updateReturning s id
      (fun r => { r with status := d.toStatus, payoutAmount := orNullInt payout }) with
  | (none, _) => (none, s)
  | (some r, s1) => (some r, appendLog s1 id d.toProcessType reviewerName (orNullStr note))

/-- DatabaseStorage.markSrpRequestPaid: in one transaction, set
`status: "approved"` on the row (no guard on the current status), return
`undefined` leaving everything unchanged when the id does not exist, and
otherwise insert a `paid` process-log row. -/
def markSrpRequestPaid (id : Nat) (byMainChar : String) (s : Storage) :
    Option SrpRequest × Storage :=
  match updateReturning s id (fun r => { r with status := .approved }) with
  | (none, _) => (none, s)
  | (some r, s1) => (some r, appendLog s1 id .paid byMainChar none)

/-- Newest-first comparison used by `orderBy(desc(srpProcessLog.occurredAt))`. -/
def byOccurredAtDesc (a b : SrpProcessLog) : Prop :=
  b.occurredAt ≤ a.occurredAt

instance : DecidableRel byOccurredAtDesc := fun a b =>
  inferInstanceAs (Decidable (b.occurredAt ≤ a.occurredAt))

instance : IsTotal SrpProcessLog byOccurredAtDesc :=
  ⟨fun a b => le_total b.occurredAt a.occurredAt⟩

instance : IsTrans SrpProcessLog byOccurredAtDesc :=
  ⟨fun _ _ _ h1 h2 => le_trans h2 h1⟩

/-- DatabaseStorage.getSrpProcessLogs: the rows of `srp_process_log` with
the given request id, ordered by `occurred_at` DESCENDING (the sort is
modelled as a stable sort of the rows in insertion order). -/
def getSrpProcessLogs (srpRequestId : Nat) (s : Storage) : List SrpProcessLog :=
  (s.processLog.filter (fun l => l.srpRequestId = srpRequestId)).insertionSort
    byOccurredAtDesc

/-- Subquery `select srp_request_id from srp_process_log where
process_type = 'paid'` followed by `id IN (...)`. -/
def hasPaidLog (s : Storage) (reqId : Nat) : Bool :=
  s.processLog.any (fun l =>
    decide (l.processType = ProcessType.paid ∧ l.srpRequestId = reqId))

/-- The `totalPaidOut` query of DatabaseStorage.getDashboardStats:
`COALESCE(SUM(payout_amount), 0)` over the rows with the caller's
`seat_user_id`, `status = 'approved'`, and id in the paid-log subquery
(SQL SUM skips null payout values). -/
def dashboardTotalPaidOut (seatUserId : Nat) (s : Storage) : Int :=
  ((s.requests.filter (fun r =>
      decide (r.seatUserId = seatUserId ∧ r.status = SrpStatus.approved) &&
        hasPaidLog s r.id)).map
    (fun r => r.payoutAmount.getD 0)).sum

/-- The total the specification describes for `totalPaidOut(scope)`: the sum
of `payoutAmount` over exactly the scoped requests whose process log
contains a `paid` entry (no condition on the current status).  Spec-side
definition, kept for comparison with `dashboardTotalPaidOut`. -/
def totalPaidOutSpec (seatUserId : Nat) (s : Storage) : Int :=
  ((s.requests.filter (fun r =>
      decide (r.seatUserId = seatUserId) && hasPaidLog s r.id)).map
    (fun r => r.payoutAmount.getD 0)).sum

/-- Invariant claimed by the specification: `payoutAmount` is non-null iff
`status == approved`, for every request row. -/
def payoutInv (s : Storage) : Prop :=
  ∀ r ∈ s.requests, r.payoutAmount ≠ none ↔ r.status = SrpStatus.approved

instance (s : Storage) : Decidable (payoutInv s) :=
  List.decidableBAll _ s.requests

/-- Well-formedness of the fresh-id counter: every stored row and log entry
carries an id below `nextId`, so a newly generated id is unused.  This is
the uuid-freshness assumption of `gen_random_uuid()`. -/
def freshInv (s : Storage) : Prop :=
  (∀ r ∈ s.requests, r.id < s.nextId) ∧
    (∀ l ∈ s.processLog, l.srpRequestId < s.nextId)

instance (s : Storage) : Decidable (freshInv s) :=
  instDecidableAnd

/-- One tier of `srpLimits.json` (name, maxPayout, classes). -/
structure SrpTier where
  name : String
  maxPayout : Int
  classes : List String
deriving DecidableEq

/-- Parsed shape of `srpLimits.json` (`SrpLimitsData`). -/
structure SrpLimitsData where
  version : String
  tiers : List SrpTier
deriving DecidableEq

/-- In-memory state of `SrpLimitsService`: the raw data plus the two
class-name maps. -/
structure SrpLimitsState where
  limitsData : Option SrpLimitsData
  classToMaxPayout : List (String × Int)
  classToTier : List (String × String)
deriving DecidableEq

/-- The service before any load: `limitsData = null`, empty maps. -/
def emptyLimits : SrpLimitsState := ⟨none, [], []⟩

/-- JavaScript `Map.set`: overwrite the binding when the key is present,
append it otherwise (so a later duplicate class wins). -/
def mapSet {α : Type} (k : String) (v : α) (m : List (String × α)) :
    List (String × α) :=
  if m.any (fun p => p.1 = k) then
    m.map (fun p => if p.1 = k then (k, v) else p)
  else m ++ [(k, v)]

/-- The two nested `for` loops of `SrpLimitsService.initialize` filling
`classToMaxPayout` and `classToTier` from cleared maps. -/
def buildClassMaps (tiers : List SrpTier) :
    List (String × Int) × List (String × String) :=
  tiers.foldl
    (fun acc tier =>
      tier.classes.foldl
        (fun acc2 cls =>
          (mapSet cls tier.maxPayout acc2.1, mapSet cls tier.name acc2.2))
        acc)
    ([], [])

/-- SrpLimitsService.initialize, with the file system abstracted: `none`
models a missing `srpLimits.json` (the code logs a warning and returns),
`some (Except.error e)` models a file whose `JSON.parse` throws `e` (the
returned promise rejects with that error), and `some (Except.ok d)` a
well-formed file, which replaces the state wholesale. -/
def loadLimits (source : Option (Except String SrpLimitsData))
    (st : SrpLimitsState) : Except String SrpLimitsState :=
  match source with
  | none => Except.ok st
  | some (Except.error e) => Except.error e
  | some (Except.ok d) =>
      Except.ok
        { limitsData := some d
          classToMaxPayout := (buildClassMaps d.tiers).1
          classToTier := (buildClassMaps d.tiers).2 }

/-- SrpLimitsService.isLoaded: `limitsData !== null`. -/
def isLoaded (st : SrpLimitsState) : Bool := st.limitsData.isSome

/-- Operation context of a request (`operation_type` enum). -/
inductive OperationType
  | solo
  | fleet
deriving DecidableEq

/-- Modelled from the spec: the payout-calculation endpoint is not among the
sources (only its response shape `SrpCalculateResponse` is), so the
multiplier for the operation type follows the specification's policy
constants — `fleet` 1.0, `solo` 0.5. -/
def operationMultiplier : OperationType → ℚ
  | .solo => 1 / 2
  | .fleet => 1

/-- Modelled from the spec: bonus multiplier 1.2 applied when the special
role flag is set, 1 otherwise. -/
def roleMultiplier (isSpecialRole : Bool) : ℚ :=
  if isSpecialRole then 6 / 5 else 1

/-- Modelled from the spec: the payout calculation of §4.2 — base is the
claimed value, the operation multiplier and then the role bonus are
applied, the tier cap (when the category has one) is taken as a ceiling,
and the result is rounded down to a whole unit. -/
def calculatePayout (maxPayout : Option ℚ) (claimedValue : ℚ)
    (op : OperationType) (isSpecialRole : Bool) : ℤ :=
  let base := claimedValue
  let afterOp := base * operationMultiplier op
  let afterRole := afterOp * roleMultiplier isSpecialRole
  match maxPayout with
  | some cap => Int.floor (min cap afterRole)
  | none => Int.floor afterRole

/-- A store holding one request that has already been denied (a terminal
status), together with its `created` and `denied` log entries. -/
def deniedStore : Storage :=
  { requests := [⟨1, 7, 300, .denied, none⟩]
    processLog :=
      [⟨1, .created, "alice", none, 0⟩, ⟨1, .denied, "bob", some "no", 1⟩]
    nextId := 2
    now := 2 }

/-- A store holding one freshly created pending request. -/
def pendingStore : Storage :=
  { requests := [⟨1, 7, 300, .pending, none⟩]
    processLog := [⟨1, .created, "alice", none, 0⟩]
    nextId := 2
    now := 1 }

/-- A store reached from empty by create, review(approved, payout 100),
markPaid, then review(processing, payout 100): its single request has a
`paid` log entry and a non-null payout but its current status is
`processing`. -/
def paidThenProcessingStore : Storage :=
  (reviewSrpRequest 1 "bob" .processing none (some 100)
    (markSrpRequestPaid 1 "bob"
      (reviewSrpRequest 1 "bob" .approved none (some 100)
        (createSrpRequest 7 "alice" ⟨300⟩ emptyStorage).2).2).2).2

/-- A review decision writes the `approved` status exactly when it is the
approve decision. -/
theorem ReviewDecision.toStatus_eq_approved (d : ReviewDecision) :
    d.toStatus = SrpStatus.approved ↔ d = ReviewDecision.approved := by
  cases d <;> simp [ReviewDecision.toStatus]

/-- C10: for a request id that does not exist in the store, both
`reviewSrpRequest` and `markSrpRequestPaid` return none and leave the store
— in particular the process log — exactly as it was: the early return
inside the transaction prevents an orphan log entry. -/
theorem c10_missing_id_no_effect (s : Storage) (id : Nat)
    (h : findRequest s id = none) (reviewer actor : String)
    (d : ReviewDecision) (note : Option String) (payout : Option Int) :
    reviewSrpRequest id reviewer d note payout s = (none, s) ∧
      markSrpRequestPaid id actor s = (none, s) := by
  constructor <;> simp [reviewSrpRequest, markSrpRequestPaid, updateReturning, h]

theorem c10_missing_id_no_effect_witness :
    reviewSrpRequest 5 "bob" ReviewDecision.approved none (some 150)
        emptyStorage = (none, emptyStorage) ∧
      markSrpRequestPaid 5 "bob" emptyStorage = (none, emptyStorage) :=
  c10_missing_id_no_effect emptyStorage 5 (by decide) "bob" "bob"
    ReviewDecision.approved none (some 150)

/-- C1 counterexample: on a store whose only request is already `denied`
(a terminal status), `reviewSrpRequest` with the approve decision and
payout 150 does not fail — it returns the row rewritten to approved with
payout 150 and changes the store, refuting the claim that a review on a
terminal request fails with `InvalidTransitionError` and leaves the row and
log unchanged. -/
theorem c1_counterexample :
    findRequest deniedStore 1 = some ⟨1, 7, 300, .denied, none⟩ ∧
      (reviewSrpRequest 1 "carol" .approved none (some 150) deniedStore).1 =
        some ⟨1, 7, 300, .approved, some 150⟩ ∧
      (reviewSrpRequest 1 "carol" .approved none (some 150) deniedStore).2 ≠
        deniedStore := by
  decide

/-- C1 amended: `reviewSrpRequest` applies no guard on the current status —
on any existing request, terminal or not, it succeeds, rewriting the row's
status to the decision and its payout to `payout || null`, and appends the
matching process-log entry. -/
theorem c1_review_has_no_status_guard (s : Storage) (id : Nat)
    (r : SrpRequest) (h : findRequest s id = some r) (reviewer : String)
    (d : ReviewDecision) (note : Option String) (payout : Option Int) :
    (reviewSrpRequest id reviewer d note payout s).1 =
        some { r with status := d.toStatus, payoutAmount := orNullInt payout } ∧
      (reviewSrpRequest id reviewer d note payout s).2.processLog =
        s.processLog ++ [⟨id, d.toProcessType, reviewer, orNullStr note, s.now⟩] ∧
      (reviewSrpRequest id reviewer d note payout s).2.requests =
        updateWhere id
          (fun r => { r with status := d.toStatus, payoutAmount := orNullInt payout })
          s.requests := by
  simp [reviewSrpRequest, updateReturning, h, appendLog]

theorem c1_review_has_no_status_guard_witness :
    (reviewSrpRequest 1 "carol" ReviewDecision.approved none (some 150)
          deniedStore).1 =
        some { (⟨1, 7, 300, .denied, none⟩ : SrpRequest) with
                status := ReviewDecision.approved.toStatus
                payoutAmount := orNullInt (some 150) } ∧
      (reviewSrpRequest 1 "carol" ReviewDecision.approved none (some 150)
            deniedStore).2.processLog =
        deniedStore.processLog ++
          [⟨1, ReviewDecision.approved.toProcessType, "carol",
            orNullStr none, deniedStore.now⟩] ∧
      (reviewSrpRequest 1 "carol" ReviewDecision.approved none (some 150)
            deniedStore).2.requests =
        updateWhere 1
          (fun r => { r with
            status := ReviewDecision.approved.toStatus
            payoutAmount := orNullInt (some 150) })
          deniedStore.requests :=
  c1_review_has_no_status_guard deniedStore 1 ⟨1, 7, 300, .denied, none⟩
    (by decide) "carol" ReviewDecision.approved none (some 150)

/-- C3 counterexample: `markSrpRequestPaid` on a store whose only request is
still `pending` does not fail — it succeeds, rewrites the status to
`approved` (so the status field is not left unchanged), and appends a
`paid` entry, refuting the claim that markPaid on a non-approved request
fails with `InvalidTransitionError` and changes nothing. -/
theorem c3_counterexample :
    findRequest pendingStore 1 = some ⟨1, 7, 300, .pending, none⟩ ∧
      (markSrpRequestPaid 1 "bob" pendingStore).1 =
        some ⟨1, 7, 300, .approved, none⟩ ∧
      (markSrpRequestPaid 1 "bob" pendingStore).2 ≠ pendingStore ∧
      (markSrpRequestPaid 1 "bob" pendingStore).2.processLog =
        pendingStore.processLog ++ [⟨1, .paid, "bob", none, 1⟩] := by
  decide

/-- C3 amended: `markSrpRequestPaid` succeeds on any existing request
regardless of its current status: it forces the status column to
`approved` (leaving it unchanged only when it already was) and appends one
`paid` process-log entry; it returns none only for a nonexistent id. -/
theorem c3_markPaid_has_no_status_guard (s : Storage) (id : Nat)
    (r : SrpRequest) (h : findRequest s id = some r) (actor : String) :
    (markSrpRequestPaid id actor s).1 = some { r with status := .approved } ∧
      (markSrpRequestPaid id actor s).2.processLog =
        s.processLog ++ [⟨id, .paid, actor, none, s.now⟩] ∧
      (markSrpRequestPaid id actor s).2.requests =
        updateWhere id (fun r => { r with status := .approved }) s.requests := by
  simp [markSrpRequestPaid, updateReturning, h, appendLog]

theorem c3_markPaid_has_no_status_guard_witness :
    (markSrpRequestPaid 1 "bob" pendingStore).1 =
        some { (⟨1, 7, 300, .pending, none⟩ : SrpRequest) with
                status := SrpStatus.approved } ∧
      (markSrpRequestPaid 1 "bob" pendingStore).2.processLog =
        pendingStore.processLog ++ [⟨1, .paid, "bob", none, pendingStore.now⟩] ∧
      (markSrpRequestPaid 1 "bob" pendingStore).2.requests =
        updateWhere 1 (fun r => { r with status := SrpStatus.approved })
          pendingStore.requests :=
  c3_markPaid_has_no_status_guard pendingStore 1 ⟨1, 7, 300, .pending, none⟩
    (by decide) "bob"

/-- C5: from any store with a sound fresh-id counter, `createSrpRequest`
returns a request whose status is pending, and reading that request and its
process log from the resulting store immediately afterwards finds the row
and exactly one log entry, of kind `created` — both writes of the single
transaction are visible together. -/
theorem c5_create_pending_one_created (s : Storage) (h : freshInv s)
    (uid : Nat) (name : String) (data : InsertSrpRequest) :
    (createSrpRequest uid name data s).1.status = SrpStatus.pending ∧
      findRequest (createSrpRequest uid name data s).2
          (createSrpRequest uid name data s).1.id =
        some (createSrpRequest uid name data s).1 ∧
      getSrpProcessLogs (createSrpRequest uid name data s).1.id
          (createSrpRequest uid name data s).2 =
        [⟨s.nextId, .created, name, none, s.now⟩] := by
  obtain ⟨hr, hl⟩ := h
  refine ⟨rfl, ?_, ?_⟩
  · simp only [createSrpRequest, findRequest, appendLog]
    rw [List.find?_append]
    have hnone : s.requests.find? (fun r => r.id = s.nextId) = none := by
      rw [List.find?_eq_none]
      intro x hx
      simpa using Nat.ne_of_lt (hr x hx)
    rw [hnone]
    simp
  · simp only [createSrpRequest, getSrpProcessLogs, appendLog]
    rw [List.filter_append]
    have hnil : s.processLog.filter (fun l => l.srpRequestId = s.nextId) = [] := by
      rw [List.filter_eq_nil_iff]
      intro x hx
      simpa using Nat.ne_of_lt (hl x hx)
    rw [hnil]
    simp [List.insertionSort]

theorem c5_create_pending_one_created_witness :
    (createSrpRequest 7 "alice" ⟨300⟩ emptyStorage).1.status =
        SrpStatus.pending ∧
      findRequest (createSrpRequest 7 "alice" ⟨300⟩ emptyStorage).2
          (createSrpRequest 7 "alice" ⟨300⟩ emptyStorage).1.id =
        some (createSrpRequest 7 "alice" ⟨300⟩ emptyStorage).1 ∧
      getSrpProcessLogs (createSrpRequest 7 "alice" ⟨300⟩ emptyStorage).1.id
          (createSrpRequest 7 "alice" ⟨300⟩ emptyStorage).2 =
        [⟨emptyStorage.nextId, .created, "alice", none, emptyStorage.now⟩] :=
  c5_create_pending_one_created emptyStorage (by decide) 7 "alice" ⟨300⟩

/-- C7 counterexample: on a store whose request 1 has a `created` entry at
time 0 and a `denied` entry at time 1, `getSrpProcessLogs` returns the
entries newest first — timestamps [1, 0] — so the returned sequence is not
ordered by ascending timestamp as the claim states. -/
theorem c7_counterexample :
    (getSrpProcessLogs 1 deniedStore).map (fun l => l.occurredAt) = [1, 0] ∧
      ¬ (getSrpProcessLogs 1 deniedStore).Sorted
          (fun a b => a.occurredAt ≤ b.occurredAt) := by
  decide

/-- C7 amended: `getSrpProcessLogs` returns the finite sequence of exactly
the given request's entries ordered by DESCENDING timestamp (the query is a
pure read, so repeated calls on the same store return the same sequence). -/
theorem c7_logs_sorted_descending (id : Nat) (s : Storage) :
    (getSrpProcessLogs id s).Sorted byOccurredAtDesc ∧
      (getSrpProcessLogs id s).Perm
        (s.processLog.filter (fun l => l.srpRequestId = id)) ∧
      ∀ l ∈ getSrpProcessLogs id s, l.srpRequestId = id := by
  refine ⟨List.sorted_insertionSort _ _, List.perm_insertionSort _ _, ?_⟩
  intro l hl
  have hm := (List.perm_insertionSort byOccurredAtDesc
      (s.processLog.filter (fun l => l.srpRequestId = id))).mem_iff.mp hl
  have := (List.mem_filter.mp hm).2
  simpa using this

/-- C8 counterexample: when the limits file is absent, `initialize` logs a
warning and returns successfully with the service still unloaded — it does
not fail with a `ConfigError`, refuting the claim that an absent source
always signals failure rather than silently degrading into "no tiers". -/
theorem c8_counterexample :
    loadLimits none emptyLimits = Except.ok emptyLimits ∧
      isLoaded emptyLimits = false :=
  ⟨rfl, rfl⟩

/-- C8 amended: an absent limits file makes `initialize` return successfully
with the state untouched (only a console warning — the "no tiers" state is
not signalled to the caller); a present but malformed file makes it fail
with the JSON parse error; a well-formed file loads and replaces the state,
after which the service reports itself loaded. -/
theorem c8_load_behaviour (st : SrpLimitsState) (e : String)
    (d : SrpLimitsData) :
    loadLimits none st = Except.ok st ∧
      loadLimits (some (Except.error e)) st = Except.error e ∧
      ∃ st2, loadLimits (some (Except.ok d)) st = Except.ok st2 ∧
        isLoaded st2 = true ∧ st2.limitsData = some d :=
  ⟨rfl, rfl, _, rfl, rfl, rfl⟩

/-- C9: the final payout equals `min(cap, claimedValue × operationMultiplier
× roleBonus)` rounded down when the category has a tier cap, and the
uncapped product rounded down otherwise; concretely, cap 100 with claimed
value 300 solo and no special role yields 100, and no tier with claimed
value 80 fleet with the special role yields 96. -/
theorem c9_payout_formula (cap v : ℚ) (op : OperationType) (sp : Bool) :
    calculatePayout (some cap) v op sp =
        Int.floor (min cap (v * operationMultiplier op * roleMultiplier sp)) ∧
      calculatePayout none v op sp =
        Int.floor (v * operationMultiplier op * roleMultiplier sp) ∧
      calculatePayout (some 100) 300 OperationType.solo false = 100 ∧
      calculatePayout none 80 OperationType.fleet true = 96 := by
  refine ⟨rfl, rfl, ?_, ?_⟩
  · show Int.floor (min (100 : ℚ) (300 * (1 / 2) * 1)) = 100
    norm_num
  · show Int.floor ((80 : ℚ) * 1 * (6 / 5)) = 96
    norm_num

/-- C2 counterexample: reviewing a pending request with the approve decision
and a supplied payout of 0 completes with the row set to `approved` while
`payout || null` stores null — so after the operation a request violates
"payoutAmount is non-null iff status == approved", and approving did not
store the supplied payout. -/
theorem c2_counterexample :
    (reviewSrpRequest 1 "bob" .approved (some "ok") (some 0) pendingStore).1 =
        some ⟨1, 7, 300, .approved, none⟩ ∧
      ¬ payoutInv
          (reviewSrpRequest 1 "bob" .approved (some "ok") (some 0)
              pendingStore).2 := by
  decide

/-- C2 amended: the payout iff invariant is not maintained unconditionally;
it is preserved by `createSrpRequest` always, by `reviewSrpRequest` exactly
when a non-null-after-`|| null` payout is supplied iff the decision is
approve, and by `markSrpRequestPaid` provided every row with the target id
is already approved (the operation forces status to approved without
touching the payout). -/
theorem c2_payout_invariant_guarded (s : Storage) (h : payoutInv s)
    (uid : Nat) (name reviewer actor : String) (data : InsertSrpRequest)
    (id id2 : Nat) (d : ReviewDecision) (note : Option String)
    (payout : Option Int)
    (hp : orNullInt payout ≠ none ↔ d = ReviewDecision.approved)
    (hm : ∀ r ∈ s.requests, r.id = id2 → r.status = SrpStatus.approved) :
    payoutInv (createSrpRequest uid name data s).2 ∧
      payoutInv (reviewSrpRequest id reviewer d note payout s).2 ∧
      payoutInv (markSrpRequestPaid id2 actor s).2 := by
  refine ⟨?_, ?_, ?_⟩
  · intro r hr
    simp only [createSrpRequest, appendLog, List.mem_append,
      List.mem_singleton] at hr
    rcases hr with hr | hr
    · exact h r hr
    · subst hr
      simp
  · cases hf : findRequest s id with
    | none =>
      simp only [reviewSrpRequest, updateReturning, hf]
      exact h
    | some r0 =>
      simp only [reviewSrpRequest, updateReturning, hf, appendLog]
      intro r' hr'
      rcases List.mem_map.mp hr' with ⟨r1, hr1, heq⟩
      by_cases hid : r1.id = id
      · rw [if_pos hid] at heq
        subst heq
        simpa [ReviewDecision.toStatus_eq_approved] using hp
      · rw [if_neg hid] at heq
        subst heq
        exact h r1 hr1
  · cases hf : findRequest s id2 with
    | none =>
      simp only [markSrpRequestPaid, updateReturning, hf]
      exact h
    | some r0 =>
      simp only [markSrpRequestPaid, updateReturning, hf, appendLog]
      intro r' hr'
      rcases List.mem_map.mp hr' with ⟨r1, hr1, heq⟩
      by_cases hid : r1.id = id2
      · rw [if_pos hid] at heq
        subst heq
        have happ : r1.status = SrpStatus.approved := hm r1 hr1 hid
        have := (h r1 hr1).mpr happ
        simpa using this
      · rw [if_neg hid] at heq
        subst heq
        exact h r1 hr1

theorem c2_payout_invariant_guarded_witness :
    payoutInv (createSrpRequest 7 "alice" ⟨300⟩ pendingStore).2 ∧
      payoutInv
        (reviewSrpRequest 1 "bob" ReviewDecision.approved none (some 150)
            pendingStore).2 ∧
      payoutInv (markSrpRequestPaid 2 "bob" pendingStore).2 :=
  c2_payout_invariant_guarded pendingStore (by decide) 7 "alice" "bob" "bob"
    ⟨300⟩ 1 2 ReviewDecision.approved none (some 150) (by decide) (by decide)

/-- C6 counterexample: `updateSrpRequest` with a status patch flips the
pending request to denied while the process log stays exactly as it was —
a storage operation changed the status field without appending any
audit entry. -/
theorem c6_counterexample :
    ((updateSrpRequest 1 ⟨some .denied, none⟩ pendingStore).2).processLog =
        pendingStore.processLog ∧
      findRequest (updateSrpRequest 1 ⟨some .denied, none⟩ pendingStore).2 1 =
        some ⟨1, 7, 300, .denied, none⟩ ∧
      findRequest pendingStore 1 = some ⟨1, 7, 300, .pending, none⟩ := by
  decide

/-- C6 amended: `createSrpRequest`, `reviewSrpRequest` and
`markSrpRequestPaid` each couple their row change with exactly one matching
process-log append in the same transaction, and change nothing at all when
the row is missing; but `updateSrpRequest` updates rows — the status field
included — while never appending a log entry. -/
theorem c6_state_log_coupling (s : Storage) (id : Nat) (p : SrpRequestPatch)
    (uid : Nat) (name reviewer actor : String) (data : InsertSrpRequest)
    (d : ReviewDecision) (note : Option String) (payout : Option Int) :
    (updateSrpRequest id p s).2.processLog = s.processLog ∧
      (createSrpRequest uid name data s).2.processLog =
        s.processLog ++ [⟨s.nextId, .created, name, none, s.now⟩] ∧
      ((reviewSrpRequest id reviewer d note payout s).1 = none →
        (reviewSrpRequest id reviewer d note payout s).2 = s) ∧
      ((reviewSrpRequest id reviewer d note payout s).1 ≠ none →
        (reviewSrpRequest id reviewer d note payout s).2.processLog =
          s.processLog ++
            [⟨id, d.toProcessType, reviewer, orNullStr note, s.now⟩]) ∧
      ((markSrpRequestPaid id actor s).1 = none →
        (markSrpRequestPaid id actor s).2 = s) ∧
      ((markSrpRequestPaid id actor s).1 ≠ none →
        (markSrpRequestPaid id actor s).2.processLog =
          s.processLog ++ [⟨id, .paid, actor, none, s.now⟩]) := by
  cases hf : findRequest s id with
  | none =>
    refine ⟨?_, rfl, ?_, ?_, ?_, ?_⟩ <;>
      simp [updateSrpRequest, reviewSrpRequest, markSrpRequestPaid,
        updateReturning, createSrpRequest, appendLog, hf]
  | some r0 =>
    refine ⟨?_, rfl, ?_, ?_, ?_, ?_⟩ <;>
      simp [updateSrpRequest, reviewSrpRequest, markSrpRequestPaid,
        updateReturning, createSrpRequest, appendLog, hf]

theorem c6_state_log_coupling_witness :
    (updateSrpRequest 1 ⟨some .denied, none⟩ pendingStore).2.processLog =
        pendingStore.processLog ∧
      (createSrpRequest 7 "alice" ⟨300⟩ pendingStore).2.processLog =
        pendingStore.processLog ++
          [⟨pendingStore.nextId, .created, "alice", none, pendingStore.now⟩] ∧
      ((reviewSrpRequest 1 "bob" ReviewDecision.denied (some "no") none
            pendingStore).1 = none →
        (reviewSrpRequest 1 "bob" ReviewDecision.denied (some "no") none
            pendingStore).2 = pendingStore) ∧
      ((reviewSrpRequest 1 "bob" ReviewDecision.denied (some "no") none
            pendingStore).1 ≠ none →
        (reviewSrpRequest 1 "bob" ReviewDecision.denied (some "no") none
            pendingStore).2.processLog =
          pendingStore.processLog ++
            [⟨1, ReviewDecision.denied.toProcessType, "bob",
              orNullStr (some "no"), pendingStore.now⟩]) ∧
      ((markSrpRequestPaid 1 "bob" pendingStore).1 = none →
        (markSrpRequestPaid 1 "bob" pendingStore).2 = pendingStore) ∧
      ((markSrpRequestPaid 1 "bob" pendingStore).1 ≠ none →
        (markSrpRequestPaid 1 "bob" pendingStore).2.processLog =
          pendingStore.processLog ++ [⟨1, .paid, "bob", none, pendingStore.now⟩]) :=
  c6_state_log_coupling pendingStore 1 ⟨some .denied, none⟩ 7 "alice" "bob"
    "bob" ⟨300⟩ ReviewDecision.denied (some "no") none

/-- C4 counterexample: on a store reached from empty by create,
review(approve, 100), markPaid, review(processing, 100), the request has a
`paid` log entry and payout 100, yet `totalPaidOut` reports 0 because the
query additionally requires the current status to be `approved` — refuting
"the sum over exactly those requests whose log contains a paid entry". -/
theorem c4_counterexample :
    dashboardTotalPaidOut 7 paidThenProcessingStore = 0 ∧
      totalPaidOutSpec 7 paidThenProcessingStore = 100 ∧
      hasPaidLog paidThenProcessingStore 1 = true ∧
      (findRequest paidThenProcessingStore 1).map (fun r => r.payoutAmount) =
        some (some 100) := by
  decide

/-- Sum of a mapped filtered list as a sum over the whole list with the
filtered-out elements contributing zero. -/
theorem sum_map_filter_eq (f : SrpRequest → Int) (p : SrpRequest → Bool)
    (l : List SrpRequest) :
    ((l.filter p).map f).sum = (l.map (fun a => if p a then f a else 0)).sum := by
  induction l with
  | nil => rfl
  | cons a t ih =>
    by_cases hpa : p a
    · simp [List.filter_cons, hpa, ih]
    · simp [List.filter_cons, hpa, ih]

/-- The `totalPaidOut` query, written out per row: a row contributes its
(null-coalesced) payout exactly when it belongs to the scoped user, its
current status is approved, and its id appears in a `paid` log entry. -/
theorem dashboardTotalPaidOut_characterization (uid : Nat) (s : Storage) :
    dashboardTotalPaidOut uid s =
      (s.requests.map (fun r =>
        if r.seatUserId = uid ∧ r.status = SrpStatus.approved ∧
            hasPaidLog s r.id then
          r.payoutAmount.getD 0
        else 0)).sum := by
  unfold dashboardTotalPaidOut
  rw [sum_map_filter_eq]
  congr 1
  apply List.map_congr_left
  intro r _
  by_cases h1 : r.seatUserId = uid <;>
    by_cases h2 : r.status = SrpStatus.approved <;>
      by_cases h3 : hasPaidLog s r.id <;>
        simp [h1, h2, h3]

/-- Finding a row by id through an id-preserving per-id update. -/
theorem find?_updateWhere (f : SrpRequest → SrpRequest)
    (hf : ∀ r, (f r).id = r.id) (id : Nat) (l : List SrpRequest) :
    (updateWhere id f l).find? (fun r => r.id = id) =
      (l.find? (fun r => r.id = id)).map f := by
  induction l with
  | nil => rfl
  | cons a t ih =>
    simp only [updateWhere, List.map_cons]
    by_cases ha : a.id = id
    · rw [if_pos ha]
      rw [List.find?_cons_of_pos _ (by simp [hf a, ha]),
        List.find?_cons_of_pos _ (by simp [ha])]
      rfl
    · rw [if_neg ha]
      rw [List.find?_cons_of_neg _ (by simp [ha]),
        List.find?_cons_of_neg _ (by simp [ha])]
      exact ih

/-- An idempotent id-preserving per-id update applied twice equals the
update applied once. -/
theorem updateWhere_idem (f : SrpRequest → SrpRequest)
    (hff : ∀ r, f (f r) = f r) (hf : ∀ r, (f r).id = r.id) (id : Nat)
    (l : List SrpRequest) :
    updateWhere id f (updateWhere id f l) = updateWhere id f l := by
  unfold updateWhere
  rw [List.map_map]
  apply List.map_congr_left
  intro a _
  by_cases ha : a.id = id
  · simp [Function.comp, ha, hf a, hff a]
  · simp [Function.comp, ha]

/-- Appending one log row changes `hasPaidLog` only by the disjunct for that
row. -/
theorem hasPaidLog_append (s : Storage) (l2 : List SrpProcessLog) (x : Nat)
    (req2 : List SrpRequest) (n2 n3 : Nat) :
    hasPaidLog
        { requests := req2, processLog := s.processLog ++ l2, nextId := n2,
          now := n3 } x =
      (hasPaidLog s x ||
        l2.any (fun l =>
          decide (l.processType = ProcessType.paid ∧ l.srpRequestId = x))) := by
  simp [hasPaidLog, List.any_append]

/-- The `totalPaidOut` query depends only on the request rows and on which
ids have a `paid` log entry. -/
theorem dashboardTotalPaidOut_congr (uid : Nat) (s s2 : Storage)
    (hreq : s2.requests = s.requests)
    (hlog : ∀ x, hasPaidLog s2 x = hasPaidLog s x) :
    dashboardTotalPaidOut uid s2 = dashboardTotalPaidOut uid s := by
  unfold dashboardTotalPaidOut
  rw [hreq]
  have hfil :
      s.requests.filter (fun r =>
        decide (r.seatUserId = uid ∧ r.status = SrpStatus.approved) &&
          hasPaidLog s2 r.id) =
      s.requests.filter (fun r =>
        decide (r.seatUserId = uid ∧ r.status = SrpStatus.approved) &&
          hasPaidLog s r.id) :=
    List.filter_congr (fun r _ => by rw [hlog r.id])
  rw [hfil]

/-- A retried `markSrpRequestPaid` leaves `totalPaidOut` unchanged: the
duplicate `paid` entry is absorbed by the IN-subquery, so the payout is
counted exactly once. -/
theorem markPaid_retry_totalPaidOut (uid id : Nat) (actor : String)
    (s : Storage) :
    dashboardTotalPaidOut uid
        (markSrpRequestPaid id actor (markSrpRequestPaid id actor s).2).2 =
      dashboardTotalPaidOut uid (markSrpRequestPaid id actor s).2 := by
  cases hf : findRequest s id with
  | none =>
    have h1 : (markSrpRequestPaid id actor s).2 = s := by
      simp [markSrpRequestPaid, updateReturning, hf]
    rw [h1, h1]
  | some r0 =>
    have h1 : (markSrpRequestPaid id actor s).2 =
        { requests :=
            updateWhere id (fun r => { r with status := .approved }) s.requests
          processLog := s.processLog ++ [⟨id, .paid, actor, none, s.now⟩]
          nextId := s.nextId
          now := s.now + 1 } := by
      simp [markSrpRequestPaid, updateReturning, hf, appendLog]
    rw [h1]
    have hf2 : (updateWhere id
          (fun r => { r with status := SrpStatus.approved })
          s.requests).find? (fun r => r.id = id) =
        some { r0 with status := SrpStatus.approved } := by
      rw [find?_updateWhere (fun r => { r with status := SrpStatus.approved })
        (fun r => rfl) id s.requests]
      show (findRequest s id).map _ = _
      rw [hf]
      rfl
    have h2 : (markSrpRequestPaid id actor
        { requests :=
            updateWhere id (fun r => { r with status := .approved }) s.requests
          processLog := s.processLog ++ [⟨id, .paid, actor, none, s.now⟩]
          nextId := s.nextId
          now := s.now + 1 }).2 =
        { requests :=
            updateWhere id (fun r => { r with status := .approved })
              (updateWhere id (fun r => { r with status := .approved })
                s.requests)
          processLog := (s.processLog ++ [⟨id, .paid, actor, none, s.now⟩]) ++
            [⟨id, .paid, actor, none, s.now + 1⟩]
          nextId := s.nextId
          now := s.now + 2 } := by
      simp only [markSrpRequestPaid, updateReturning, findRequest, appendLog]
      rw [hf2]
    rw [h2]
    apply dashboardTotalPaidOut_congr
    · exact updateWhere_idem (fun r => { r with status := SrpStatus.approved })
        (fun r => rfl) (fun r => rfl) id s.requests
    · intro x
      by_cases hx : x = id
      · subst hx
        simp [hasPaidLog, List.any_append]
      · simp [hasPaidLog, List.any_append, Ne.symm hx]

/-- C4 amended: `totalPaidOut` sums the null-coalesced payout over the
scoped user's requests that both have a `paid` log entry and currently have
status `approved` (not over all requests with a `paid` entry); within that
rule the claim's retry property does hold — an idempotently retried
`markSrpRequestPaid` leaves the total unchanged, counting the payout
exactly once. -/
theorem c4_totalPaidOut_amended (uid : Nat) (s : Storage) (id : Nat)
    (actor : String) :
    dashboardTotalPaidOut uid s =
      (s.requests.map (fun r =>
        if r.seatUserId = uid ∧ r.status = SrpStatus.approved ∧
            hasPaidLog s r.id then
          r.payoutAmount.getD 0
        else 0)).sum ∧
      dashboardTotalPaidOut uid
          (markSrpRequestPaid id actor (markSrpRequestPaid id actor s).2).2 =
        dashboardTotalPaidOut uid (markSrpRequestPaid id actor s).2 :=
  ⟨dashboardTotalPaidOut_characterization uid s,
    markPaid_retry_totalPaidOut uid id actor s⟩
